import Mathlib

/-!
Verification of the baldaquin core against its natural-language specification.

The development shallowly embeds the three subsystems the claims are about:

* the packet framework (src/baldaquin/pkt.py): the `packetclass` decorator,
  the generated constructor, `pack` and `unpack` over the integer format
  characters of the Python `struct` module;
* the buffered acquisition pipeline (src/baldaquin/buf.py): `BufferBase.flush`
  with its canonical / projection sink fan-out, and the two queue disciplines
  `FIFO` (queue.Queue) and `CircularBuffer` (collections.deque);
* the run-control finite state machine (src/baldaquin/runctrl.py):
  `FiniteStateMachine.set_reset / set_stopped / set_running / set_paused`,
  `RunControlBase.start_run`, `_increment_run_id` and
  `load_user_application`.

Machine integers are modelled as `Int` / `Nat` with explicit ranges; fallible
code returns `Except`.  The file is laid out with every definition first and
all theorems afterwards.
-/

namespace Baldaquin

/-! ## Packet framework (src/baldaquin/pkt.py)

Fields are annotated with a format character of the Python `struct` module and
the class carries a layout character.  We embed the integer format characters
(`b B h H i I l L q Q`) with their standard sizes; the float, pad and string
characters are not modelled (floating point and platform-dependent behaviour).
The native layout character `@` uses platform-dependent sizes and alignment,
so the theorems below are scoped to the standard layouts `= < > !`.
-/

/-- Byte order used when serializing a multi-byte integer. -/
inductive ByteOrder
  | little
  | big
deriving DecidableEq

/-- Layout characters of pkt.py, `_LAYOUT_CHARS = ('@', '=', '>', '<', '!')`. -/
inductive Layout
  | native      -- the character at sign, native order, size and alignment
  | nativeStd   -- the character equal sign, native order, standard sizes
  | bigEndian   -- the greater-than character
  | littleEndian -- the less-than character
  | network     -- the exclamation mark, same as big endian
deriving DecidableEq

/-- Layouts with standard sizes and no padding (all but the native one).
The pack and unpack model below is faithful only for these. -/
def Layout.standard : Layout → Bool
  | .native => false
  | _ => true

/-- Byte order of each layout character, on a little-endian host (the byte
order of the two native layouts is platform defined; CPython resolves them to
the host order, little-endian on the reference platform). -/
def Layout.byteOrder : Layout → ByteOrder
  | .native => .little
  | .nativeStd => .little
  | .bigEndian => .big
  | .littleEndian => .little
  | .network => .big

/-- Integer format characters of the struct module, a subset of
`_FORMAT_CHARS` in pkt.py.  Lower case characters are signed, upper case
unsigned. -/
inductive Fmt
  | b | B | h | H | i | I | l | L | q | Q
deriving DecidableEq

/-- Standard size in bytes of each format character
(struct.calcsize under a standard layout). -/
def Fmt.size : Fmt → Nat
  | .b | .B => 1
  | .h | .H => 2
  | .i | .I | .l | .L => 4
  | .q | .Q => 8

/-- Signedness of each format character. -/
def Fmt.signed : Fmt → Bool
  | .b | .h | .i | .l | .q => true
  | _ => false

/-- Range check performed by struct.pack: a value fits a format character
exactly when it lies in the signed or unsigned range of its size. -/
def validValue (f : Fmt) (v : Int) : Bool :=
  if f.signed then
    decide (-(2 ^ (8 * f.size - 1)) ≤ v) && decide (v < 2 ^ (8 * f.size - 1))
  else
    decide (0 ≤ v) && decide (v < 2 ^ (8 * f.size))

/-- Little-endian byte expansion of a natural number on `s` bytes. -/
def natToBytesLE : Nat → Nat → List Nat
  | 0, _ => []
  | s + 1, n => n % 256 :: natToBytesLE s (n / 256)

/-- Value of a little-endian byte string. -/
def bytesLEToNat : List Nat → Nat
  | [] => 0
  | byte :: rest => byte + 256 * bytesLEToNat rest

/-- Serialization of one integer field, as struct.pack does for a single
format character: reduce modulo 2 ^ (8 size) (two's complement for signed
values) and lay the bytes out in the layout byte order. -/
def encodeInt (order : ByteOrder) (f : Fmt) (v : Int) : List Nat :=
  let u : Nat := (v % ((2 : Int) ^ (8 * f.size))).toNat
  match order with
  | .little => natToBytesLE f.size u
  | .big => (natToBytesLE f.size u).reverse

/-- Deserialization of one integer field, as struct.unpack does for a single
format character. -/
def decodeInt (order : ByteOrder) (f : Fmt) (bs : List Nat) : Int :=
  let le := match order with
    | .little => bs
    | .big => bs.reverse
  let u := bytesLEToNat le
  if f.signed && decide (2 ^ (8 * f.size - 1) ≤ u) then
    (u : Int) - 2 ^ (8 * f.size)
  else
    (u : Int)

/-- One annotated field of a packet class: its name, its format character and
the optional expected constant attached to the annotation (the class attribute
read by `getattr(cls, field, None)` in `packetclass._init`). -/
structure Field where
  name : String
  fmt : Fmt
  expected : Option Int
deriving DecidableEq

/-- A class decorated with `packetclass`: the layout character, the annotated
fields in declaration order, and the derived-field computation performed by
the user-supplied `__post_init__` hook (a function of the field values). -/
structure PktClass where
  layout : Layout
  fields : List Field
  postInit : List Int → List Int

/-- Value of the `_size` class variable, `struct.calcsize(cls._format)`
(standard layouts: the sum of the field sizes, no padding). -/
def PktClass.size (c : PktClass) : Nat :=
  (c.fields.map (fun f => f.fmt.size)).sum

/-- Errors surfaced by the packet framework. -/
inductive PktError
  | typeError (expected got : Nat)               -- wrong number of arguments
  | fieldMismatch (field : String) (expected actual : Int)  -- FieldMismatchError
  | structError                                   -- raised by the struct module
deriving DecidableEq

/-- A constructed packet instance: the field values, the cached raw payload
and the derived fields set by `__post_init__`. -/
structure Packet where
  values : List Int
  payload : List Nat
  derived : List Int
deriving DecidableEq

/-- First field whose expected constant differs from the supplied value, with
the expected and actual values, scanning fields in declaration order exactly
as the loop in `packetclass._init` does. -/
def firstMismatch : List Field → List Int → Option (String × Int × Int)
  | f :: fs, v :: vs =>
      match f.expected with
      | some k => if k ≠ v then some (f.name, k, v) else firstMismatch fs vs
      | none => firstMismatch fs vs
  | _, _ => none

/-- Range check performed by `struct.pack` over all the field values. -/
def allValid : List Field → List Int → Bool
  | f :: fs, v :: vs => validValue f.fmt v && allValid fs vs
  | _, _ => true

/-- Serialization of a value list, `struct.pack(cls._format, *values)`. -/
def packVals (c : PktClass) (vs : List Int) : List Nat :=
  (List.zipWith (fun f v => encodeInt c.layout.byteOrder f.fmt v) c.fields vs).flatten

/-- Deserialization of a byte string along the field list,
`struct.unpack(cls._format, data)`. -/
def decodeVals (order : ByteOrder) : List Field → List Nat → List Int
  | [], _ => []
  | f :: fs, data =>
      decodeInt order f.fmt (data.take f.fmt.size) :: decodeVals order fs (data.drop f.fmt.size)

/-- The generated constructor `_init` of `packetclass`: check the argument
count, scan the fields raising `FieldMismatchError` at the first expected
constant that differs from the supplied argument, cache the payload (packing
the values when no payload is supplied, which range-checks them), and run
`__post_init__`. -/
def initPacket (c : PktClass) (args : List Int) (data? : Option (List Nat)) :
    Except PktError Packet :=
  if args.length ≠ c.fields.length then
    .error (.typeError c.fields.length args.length)
  else
    match firstMismatch c.fields args with
    | some (n, k, v) => .error (.fieldMismatch n k v)
    | none =>
        match data? with
        | some data => .ok { values := args, payload := data, derived := c.postInit args }
        | none =>
            if allValid c.fields args then
              .ok { values := args, payload := packVals c args, derived := c.postInit args }
            else .error .structError

/-- Method `FixedSizePacketBase.pack`: serialize the field values of an
instance under the class format. -/
def packPacket (c : PktClass) (p : Packet) : List Nat :=
  packVals c p.values

/-- Classmethod `FixedSizePacketBase.unpack`: decode the byte string with the
class format (struct.unpack raises on a length mismatch) and pass the decoded
values to the constructor together with the payload. -/
def unpack (c : PktClass) (data : List Nat) : Except PktError Packet :=
  if data.length ≠ c.size then .error .structError
  else initPacket c (decodeVals c.layout.byteOrder c.fields data) (some data)

/-- Predicate used to state the expected-constant invariant: every field of
the class that declares an expected constant holds exactly that constant in
the instance values. -/
def constantsHold (c : PktClass) (p : Packet) : Prop :=
  ∀ i f k, c.fields.get? i = some f → f.expected = some k → p.values.get? i = some k

/-- Predicate used for the corrected header-enforcement claim: every field
before position `j` that declares an expected constant matches the decoded
value at its position. -/
def matchesUpTo (fs : List Field) (vs : List Int) (j : Nat) : Prop :=
  ∀ i, i < j → ∀ f k, fs.get? i = some f → f.expected = some k → vs.get? i = some k

/-- Statement of claim C6 exactly as written: unpacking a correct-length byte
string whose decoded value at an expected-constant field differs from the
constant fails with a FieldMismatch error identifying that very field, its
expected value and its decoded value, regardless of every other decoded
value. -/
def claimC6 : Prop :=
  ∀ (c : PktClass) (data : List Nat) (j : Nat) (hj : j < c.fields.length) (k : Int),
    (c.fields.get ⟨j, hj⟩).expected = some k →
    data.length = c.size →
    (decodeVals c.layout.byteOrder c.fields data).get? j ≠ some k →
    unpack c data = .error (.fieldMismatch (c.fields.get ⟨j, hj⟩).name k
      ((decodeVals c.layout.byteOrder c.fields data).getD j 0))

/-- Concrete packet class mirroring the Readout class of the test suite:
big-endian layout, a one-byte header with expected constant 0xaa, a 32-bit
millisecond counter and a 16-bit ADC value, with one derived field computed
by the post-initialization hook. -/
def readoutClass : PktClass :=
  { layout := .bigEndian,
    fields := [{ name := "header", fmt := .B, expected := some 170 },
               { name := "milliseconds", fmt := .L, expected := none },
               { name := "adc_value", fmt := .H, expected := none }],
    postInit := fun vs => [vs.getD 1 0] }

/-- The Readout instance (milliseconds 1000, adc 127) used as witness. -/
def readoutPkt : Packet :=
  { values := [170, 1000, 127],
    payload := [170, 0, 0, 3, 232, 0, 127],
    derived := [1000] }

/-- A packet class with two expected-constant fields, used to refute the
as-stated header-enforcement claim. -/
def twoConstClass : PktClass :=
  { layout := .bigEndian,
    fields := [{ name := "alpha", fmt := .B, expected := some 1 },
               { name := "beta", fmt := .B, expected := some 2 }],
    postInit := fun _ => [] }

/-! ## Data buffering (src/baldaquin/buf.py)

A buffer owns a queue of packets (the front of the list is the left of the
underlying deque, i.e. the oldest item) and an ordered list of sinks.  A sink
is modelled by its optional formatter and the byte content of its output
file.  `flush` is modelled faithfully to `BufferBase.flush`, including the
facts that the returned byte count `num_bytes` is initialized to zero and
never incremented, that the sinks are visited via
`enumerate(reversed(self._sinks))`, that projection sinks peek packets by
index and that only the canonical (first-attached) sink pops.
-/

/-- A packet as the buffer sees it: only its raw payload matters here. -/
structure BPacket where
  payload : List Nat
deriving DecidableEq

/-- A packet formatting function attached to a projection sink. -/
def Formatter : Type := BPacket → List Nat

/-- A sink: the optional formatter and the bytes of its output file. -/
structure Sink where
  formatter : Option Formatter
  content : List Nat

/-- State of a buffer: the packet queue (front = oldest) and the attached
sinks in attachment order. -/
structure BufState where
  queue : List BPacket
  sinks : List Sink

/-- Errors surfaced by the buffer. -/
inductive BufError
  | noSinks             -- RuntimeError raised by flush with no sink attached
  | firstSinkFormatter  -- RuntimeError raised by add_sink
  | notCallable         -- TypeError: calling a None formatter
  | notSubscriptable    -- TypeError: indexing a queue.Queue (FIFO)
deriving DecidableEq

/-- One write event during a flush: the sink (in attachment order) and the
index of the packet (in the flush snapshot, FIFO order) being written. -/
structure WriteEv where
  sink : Nat
  pkt : Nat
deriving DecidableEq

/-- Bytes written by `_write_native`: pop `n` packets and write their raw
payloads. -/
def nativeBytes (q : List BPacket) (n : Nat) : List Nat :=
  ((q.take n).map (fun p => p.payload)).flatten

/-- Bytes written by `_write_custom`: peek the first `n` packets by index and
write `formatter(packet)` for each. -/
def customBytes (q : List BPacket) (n : Nat) (fmt : Formatter) : List Nat :=
  ((q.take n).map fmt).flatten

/-- Net effect of the flush loop body on one sink: the sink at attachment
index 0 (processed last, since the loop runs over the reversed sink list)
receives the native write, every other sink receives the custom write through
its formatter. -/
def updSink (q : List BPacket) (n : Nat) (j : Nat) (s : Sink) : Sink :=
  if j = 0 then { s with content := s.content ++ nativeBytes q n }
  else
    match s.formatter with
    | none => s
    | some fmt => { s with content := s.content ++ customBytes q n fmt }

/-- Write events produced while writing `n` packets to sink `j`. -/
def evsFor (j n : Nat) : List WriteEv :=
  (List.range n).map (fun i => ⟨j, i⟩)

/-- The flush loop `for i, sink in enumerate(reversed(self._sinks))`, acting
on (attachment index, sink) pairs in processing order.  The test
`i != len(self._sinks) - 1` of the code selects the custom write for every
sink except the first-attached one (attachment index 0), which is processed
last and written natively; `_write_custom` calls the sink formatter, a
TypeError if the formatter is None. -/
def procSinks (q : List BPacket) (n : Nat) :
    List (Nat × Sink) → Except BufError (List (Nat × Sink) × List WriteEv)
  | [] => .ok ([], [])
  | (j, s) :: rest =>
      match
        (if j = 0 then
          Except.ok { s with content := s.content ++ nativeBytes q n }
        else
          match s.formatter with
          | none => Except.error BufError.notCallable
          | some fmt => Except.ok { s with content := s.content ++ customBytes q n fmt }) with
      | .error e => .error e
      | .ok s2 =>
          match procSinks q n rest with
          | .error e => .error e
          | .ok (rest2, evs) => .ok ((j, s2) :: rest2, evsFor j n ++ evs)

/-- Model of `BufferBase.flush` keeping the chronological list of write
events: raise if no sink is attached, snapshot `n = size()`, return `(0, 0)`
when the queue is empty, otherwise run the sink loop.  The returned byte
count is `num_bytes`, which the code initializes to zero and never updates,
so a successful flush always reports zero bytes.  On an exception inside the
loop the model returns only the error (the partially written sink files are
not tracked). -/
def flushFull (st : BufState) : Except BufError (BufState × (Nat × Nat) × List WriteEv) :=
  if st.sinks.length = 0 then .error .noSinks
  else
    let n := st.queue.length
    if n = 0 then .ok (st, (0, 0), [])
    else
      match procSinks st.queue n st.sinks.enum.reverse with
      | .error e => .error e
      | .ok (pairs, evs) =>
          .ok ({ queue := st.queue.drop n, sinks := pairs.reverse.map (fun x => x.2) },
            (n, 0), evs)

/-- Public result of `BufferBase.flush`: the new buffer state and the
returned pair `(num_packets, num_bytes)`. -/
def flush (st : BufState) : Except BufError (BufState × (Nat × Nat)) :=
  match flushFull st with
  | .error e => .error e
  | .ok (st2, r, _) => .ok (st2, r)

/-- Packet statistics of the event handler
(PacketStatistics in src/baldaquin/event.py). -/
structure PacketStatistics where
  packetsProcessed : Nat
  packetsWritten : Nat
  bytesWritten : Nat
deriving DecidableEq

/-- Method `PacketStatistics.update`. -/
def PacketStatistics.update (s : PacketStatistics) (processed written bytes : Nat) :
    PacketStatistics :=
  { packetsProcessed := s.packetsProcessed + processed,
    packetsWritten := s.packetsWritten + written,
    bytesWritten := s.bytesWritten + bytes }

/-- Method `EventHandlerBase.flush_buffer`: flush the buffer and add the
returned pair to the packets-written and bytes-written counters. -/
def flushBuffer (st : BufState) (stats : PacketStatistics) :
    Except BufError (BufState × PacketStatistics) :=
  match flush st with
  | .error e => .error e
  | .ok (st2, (written, bytes)) => .ok (st2, stats.update 0 written bytes)

/-- Statement of claim C7 exactly as written: during one flush, the i-th
packet is written to every attached sink before the (i+1)-th packet is
written to any sink; on the event trace this says that write events are
ordered by packet index. -/
def packetMajorOrder (evs : List WriteEv) : Prop :=
  ∀ a b : Fin evs.length, (evs.get a).pkt < (evs.get b).pkt → (a : Nat) < (b : Nat)

/-- Claim C7 as stated, over the flush model. -/
def claimC7 : Prop :=
  ∀ (st : BufState) (st2 : BufState) (r : Nat × Nat) (evs : List WriteEv),
    2 ≤ st.sinks.length →
    flushFull st = .ok (st2, r, evs) →
    packetMajorOrder evs

/-! ### The two queue disciplines (FIFO and CircularBuffer)

`FIFO` subclasses `queue.Queue`: `_do_put` delegates to `queue.Queue.put`
(which blocks while the queue is full), `pop` to `get()`, `size` to
`qsize()`, `clear` clears the underlying deque.  A `queue.Queue` does not
support indexing, so the `self[i]` peek of `_write_custom` raises a
TypeError.  `CircularBuffer` subclasses `collections.deque` with
`maxlen = max_size`: `append` overwrites the oldest item when full, and the
deque does support indexing.
-/

/-- Configuration shared by both buffer variants: the constructor arguments
`max_size`, `flush_size` and `flush_interval` of `BufferBase`. -/
structure BufCfg where
  maxSize : Option Nat
  flushSize : Option Nat
  flushInterval : Nat

/-- Mutable state shared by both variants: queue, sinks and the time of the
last flush (`_last_flush_time`), in logical clock units. -/
structure VarState where
  queue : List BPacket
  sinks : List Sink
  lastFlush : Nat

/-- Effective capacity of a `queue.Queue`: `FIFO.__init__` maps a None
`max_size` to -1, and a maxsize less than or equal to zero means an infinite
queue. -/
def fifoCap (maxSize : Option Nat) : Int :=
  match maxSize with
  | none => -1
  | some m => m

/-- Put of the FIFO variant (`queue.Queue.put` with block=True): appends to
the right of the queue, or blocks while the queue is full (modelled as
`none`). -/
def fifoPut (maxSize : Option Nat) (q : List BPacket) (p : BPacket) :
    Option (List BPacket) :=
  if fifoCap maxSize ≤ 0 ∨ (q.length : Int) < fifoCap maxSize then some (q ++ [p])
  else none

/-- Put of the circular variant (`collections.deque.append` with a maxlen):
appends to the right, silently dropping the oldest item when full. -/
def circPut (maxSize : Option Nat) (q : List BPacket) (p : BPacket) : List BPacket :=
  match maxSize with
  | none => q ++ [p]
  | some m =>
      if q.length < m then q ++ [p]
      else (q ++ [p]).drop (q.length + 1 - m)

/-- Method `BufferBase.almost_full`: flush_size is set and size reached it. -/
def almostFull (cfg : BufCfg) (size : Nat) : Bool :=
  match cfg.flushSize with
  | none => false
  | some fs => decide (fs ≤ size)

/-- Method `BufferBase.flush_needed`: almost full, or too long since the last
flush. -/
def flushNeeded (cfg : BufCfg) (size : Nat) (now lastFlush : Nat) : Bool :=
  almostFull cfg size || decide (cfg.flushInterval < now - lastFlush)

/-- Method `BufferBase.add_sink`: the first sink attached to a buffer must
not carry a formatter; on success the sink is created with its header already
written to the file. -/
def addSinkStep (sinks : List Sink) (fmt : Option Formatter) (header : List Nat) :
    Except BufError (List Sink) :=
  if sinks.length = 0 ∧ fmt.isSome then .error .firstSinkFormatter
  else .ok (sinks ++ [{ formatter := fmt, content := header }])

/-- The flush loop as executed by the FIFO variant: identical to `procSinks`
except that every custom pass indexes the buffer with `self[i]`, which a
`queue.Queue` does not support, so it raises a TypeError before calling the
formatter. -/
def fifoProcSinks (q : List BPacket) (n : Nat) :
    List (Nat × Sink) → Except BufError (List (Nat × Sink) × List WriteEv)
  | [] => .ok ([], [])
  | (j, s) :: rest =>
      if j = 0 then
        match fifoProcSinks q n rest with
        | .error e => .error e
        | .ok (rest2, evs) =>
            .ok ((j, { s with content := s.content ++ nativeBytes q n }) :: rest2,
              evsFor j n ++ evs)
      else .error .notSubscriptable

/-- Flush of the FIFO variant (same shell as `flushFull`). -/
def fifoFlushFull (st : BufState) : Except BufError (BufState × (Nat × Nat) × List WriteEv) :=
  if st.sinks.length = 0 then .error .noSinks
  else
    let n := st.queue.length
    if n = 0 then .ok (st, (0, 0), [])
    else
      match fifoProcSinks st.queue n st.sinks.enum.reverse with
      | .error e => .error e
      | .ok (pairs, evs) =>
          .ok ({ queue := st.queue.drop n, sinks := pairs.reverse.map (fun x => x.2) },
            (n, 0), evs)

/-- Operations of the public buffer contract exercised by claim C8. -/
inductive BufOp
  | putOp (p : BPacket)
  | addSinkOp (fmt : Option Formatter) (header : List Nat)
  | flushOp (now : Nat)
  | clearOp
  | sizeOp
  | almostFullOp
  | flushNeededOp (now : Nat)

/-- Observable result of one buffer operation. -/
inductive BufOut
  | unit
  | nat (n : Nat)
  | bool (b : Bool)
  | pair (a b : Nat)
  | fail (e : BufError)
deriving DecidableEq

/-- One step of the FIFO variant; `none` models a put that blocks forever on
a full queue.  A raised exception is reported as a `fail` output with the
state otherwise unchanged (flush still updates `_last_flush_time` before
writing, faithfully to the code). -/
def fifoStep (cfg : BufCfg) (st : VarState) : BufOp → Option (VarState × BufOut)
  | .putOp p =>
      match fifoPut cfg.maxSize st.queue p with
      | none => none
      | some q => some ({ st with queue := q }, .unit)
  | .addSinkOp fmt header =>
      match addSinkStep st.sinks fmt header with
      | .error e => some (st, .fail e)
      | .ok sinks => some ({ st with sinks := sinks }, .unit)
  | .clearOp => some ({ st with queue := [] }, .unit)
  | .sizeOp => some (st, .nat st.queue.length)
  | .almostFullOp => some (st, .bool (almostFull cfg st.queue.length))
  | .flushNeededOp now =>
      some (st, .bool (flushNeeded cfg st.queue.length now st.lastFlush))
  | .flushOp now =>
      if st.sinks.length = 0 then some (st, .fail .noSinks)
      else
        match fifoFlushFull { queue := st.queue, sinks := st.sinks } with
        | .error e => some ({ st with lastFlush := now }, .fail e)
        | .ok (st2, r, _) =>
            some ({ queue := st2.queue, sinks := st2.sinks, lastFlush := now }, .pair r.1 r.2)

/-- One step of the circular variant; every operation is total. -/
def circStep (cfg : BufCfg) (st : VarState) : BufOp → VarState × BufOut
  | .putOp p => ({ st with queue := circPut cfg.maxSize st.queue p }, .unit)
  | .addSinkOp fmt header =>
      match addSinkStep st.sinks fmt header with
      | .error e => (st, .fail e)
      | .ok sinks => ({ st with sinks := sinks }, .unit)
  | .clearOp => ({ st with queue := [] }, .unit)
  | .sizeOp => (st, .nat st.queue.length)
  | .almostFullOp => (st, .bool (almostFull cfg st.queue.length))
  | .flushNeededOp now =>
      (st, .bool (flushNeeded cfg st.queue.length now st.lastFlush))
  | .flushOp now =>
      if st.sinks.length = 0 then (st, .fail .noSinks)
      else
        match flushFull { queue := st.queue, sinks := st.sinks } with
        | .error e => ({ st with lastFlush := now }, .fail e)
        | .ok (st2, r, _) =>
            ({ queue := st2.queue, sinks := st2.sinks, lastFlush := now }, .pair r.1 r.2)

/-- Run of a sequence of operations on the FIFO variant. -/
def fifoRun (cfg : BufCfg) : VarState → List BufOp → Option (VarState × List BufOut)
  | st, [] => some (st, [])
  | st, op :: ops =>
      match fifoStep cfg st op with
      | none => none
      | some (st2, o) =>
          match fifoRun cfg st2 ops with
          | none => none
          | some (st3, os) => some (st3, o :: os)

/-- Run of a sequence of operations on the circular variant. -/
def circRun (cfg : BufCfg) : VarState → List BufOp → VarState × List BufOut
  | st, [] => (st, [])
  | st, op :: ops =>
      let (st2, o) := circStep cfg st op
      let (st3, os) := circRun cfg st2 ops
      (st3, o :: os)

/-- Capacity discipline of claim C8 as stated: along the run, every put
happens strictly below the configured capacity (the overflow policies, the
only stated difference between the variants, never fire). -/
def capacityOk (cfg : BufCfg) : VarState → List BufOp → Bool
  | _, [] => true
  | st, op :: ops =>
      (match op with
       | .putOp _ =>
           match cfg.maxSize with
           | none => true
           | some m => decide (st.queue.length < m)
       | _ => true) &&
      capacityOk cfg (circStep cfg st op).1 ops

/-- Head condition of the amended claim C8: a put happens strictly below the
configured capacity, and no flush happens while a projection sink is attached
and packets are queued (the situation in which the FIFO variant raises a
TypeError). -/
def opSafe (cfg : BufCfg) (st : VarState) : BufOp → Bool
  | .putOp _ =>
      match cfg.maxSize with
      | none => true
      | some m => decide (st.queue.length < m)
  | .flushOp _ => decide (st.sinks.length ≤ 1) || decide (st.queue.length = 0)
  | _ => true

/-- Side condition of the amended claim C8, along a whole run. -/
def safeOps (cfg : BufCfg) : VarState → List BufOp → Bool
  | _, [] => true
  | st, op :: ops => opSafe cfg st op && safeOps cfg (circStep cfg st op).1 ops

/-- A sample projection formatter: the packet payload followed by a newline
byte. -/
def witFmt : Formatter := fun p => p.payload ++ [10]

/-- Buffer state used as witness for the fan-out claims: two packets queued,
a canonical sink and one projection sink. -/
def c2State : BufState :=
  { queue := [{ payload := [1, 2] }, { payload := [3] }],
    sinks := [{ formatter := none, content := [] },
              { formatter := some witFmt, content := [35] }] }

/-- Buffer state exhibiting the flush byte-count bug: one three-byte packet
and a single canonical sink. -/
def c3State : BufState :=
  { queue := [{ payload := [170, 0, 1] }],
    sinks := [{ formatter := none, content := [] }] }

/-- Buffer state used against claim C7: two packets, two sinks. -/
def c7State : BufState :=
  { queue := [{ payload := [1] }, { payload := [2] }],
    sinks := [{ formatter := none, content := [] },
              { formatter := some witFmt, content := [] }] }

/-- Variant state used against claim C8: one packet queued, a canonical sink
and one projection sink. -/
def c8State : VarState :=
  { queue := [{ payload := [1] }],
    sinks := [{ formatter := none, content := [] },
              { formatter := some witFmt, content := [] }],
    lastFlush := 0 }

/-- Claim C8 as stated: under the capacity discipline alone, the two variants
produce the same operation results and the same sink bytes on every operation
sequence (in particular a flush with a projection sink attached succeeds on
both). -/
def claimC8 : Prop :=
  ∀ (cfg : BufCfg) (st : VarState) (ops : List BufOp),
    capacityOk cfg st ops = true →
    fifoRun cfg st ops = some (circRun cfg st ops)

/-! ## Run control (src/baldaquin/runctrl.py)

`FiniteStateMachine` keeps one state out of RESET, STOPPED, RUNNING, PAUSED
and exposes the four verbs set_reset, set_stopped, set_running, set_paused.
Each verb calls the hook of the matching transition and raises
`InvalidFsmTransitionError` from any other state; `_set_state` runs only
after the hook returns, so a raising hook leaves the state unchanged.
`RunControlBase` overrides the hooks; exceptions are modelled as `Except`
errors.
-/

/-- Enum FsmState. -/
inductive FsmState
  | reset
  | stopped
  | running
  | paused
deriving DecidableEq

/-- Exceptions raised by the finite state machine. -/
inductive FsmError
  | invalidTransition (src dest : FsmState)  -- InvalidFsmTransitionError
  | hookException                            -- exception raised inside a hook
deriving DecidableEq

/-- Outcome of the seven virtual hooks of `FiniteStateMachine`: true when the
hook returns normally, false when it raises. -/
structure Hooks where
  setup : Bool
  teardown : Bool
  startRun : Bool
  stopRun : Bool
  pause : Bool
  resume : Bool
  stop : Bool
deriving DecidableEq

/-- Run one hook: propagate its exception, if any. -/
def runHook (ok : Bool) : Except FsmError Unit :=
  if ok then .ok () else .error .hookException

/-- Method `set_reset`. -/
def setReset (h : Hooks) (s : FsmState) : Except FsmError FsmState :=
  if s = .stopped then
    match runHook h.teardown with
    | .error e => .error e
    | .ok _ => .ok .reset
  else .error (.invalidTransition s .reset)

/-- Method `set_stopped`. -/
def setStopped (h : Hooks) (s : FsmState) : Except FsmError FsmState :=
  if s = .reset then
    match runHook h.setup with
    | .error e => .error e
    | .ok _ => .ok .stopped
  else if s = .running then
    match runHook h.stopRun with
    | .error e => .error e
    | .ok _ => .ok .stopped
  else if s = .paused then
    match runHook h.stop with
    | .error e => .error e
    | .ok _ => .ok .stopped
  else .error (.invalidTransition s .stopped)

/-- Method `set_running`. -/
def setRunning (h : Hooks) (s : FsmState) : Except FsmError FsmState :=
  if s = .stopped then
    match runHook h.startRun with
    | .error e => .error e
    | .ok _ => .ok .running
  else if s = .paused then
    match runHook h.resume with
    | .error e => .error e
    | .ok _ => .ok .running
  else .error (.invalidTransition s .running)

/-- Method `set_paused`. -/
def setPaused (h : Hooks) (s : FsmState) : Except FsmError FsmState :=
  if s = .running then
    match runHook h.pause with
    | .error e => .error e
    | .ok _ => .ok .paused
  else .error (.invalidTransition s .paused)

/-- Dispatch a state request to the verb with that target state. -/
def requestState (h : Hooks) (t : FsmState) (s : FsmState) : Except FsmError FsmState :=
  match t with
  | .reset => setReset h s
  | .stopped => setStopped h s
  | .running => setRunning h s
  | .paused => setPaused h s

/-- Observable effect of a state request: the state afterwards and the raised
exception, if any (a raising verb leaves the machine in its previous
state). -/
def applyRequest (h : Hooks) (t : FsmState) (s : FsmState) : FsmState × Option FsmError :=
  match requestState h t s with
  | .ok s2 => (s2, none)
  | .error e => (s, some e)

/-- The allowed-transition set as enumerated by the specification (section
4.7): this definition follows the spec words, to be compared with the
behaviour of the four verbs modelled from the code. -/
def allowedTransition : FsmState → FsmState → Bool
  | .reset, .stopped => true
  | .stopped, .reset => true
  | .stopped, .running => true
  | .running, .stopped => true
  | .running, .paused => true
  | .paused, .running => true
  | .paused, .stopped => true
  | _, _ => false

/-- Outcome of the hook guarding a given transition (true for transitions
that have no hook, i.e. the disallowed ones). -/
def hookFor (h : Hooks) : FsmState → FsmState → Bool
  | .reset, .stopped => h.setup
  | .stopped, .reset => h.teardown
  | .stopped, .running => h.startRun
  | .running, .stopped => h.stopRun
  | .running, .paused => h.pause
  | .paused, .running => h.resume
  | .paused, .stopped => h.stop
  | _, _ => true

/-- A user application as the run control sees it: the outcome of each of its
lifecycle hooks. -/
structure UserApp where
  setupOk : Bool
  teardownOk : Bool
  startOk : Bool
  stopOk : Bool
deriving DecidableEq

/-- Actions of the run control that the claims observe, in chronological
order. -/
inductive RCEvent
  | runIdSignal (v : Nat)      -- run_id_changed.emit(run id)
  | persistRunId (v : Nat)     -- _write_run_id: write run id to config/run.cfg
  | createDataFolder (runId : Nat)
  | addLogHandler (runId : Nat)
  | appStart (runId : Nat)     -- user_application.start: data writing begins
  | appLoadedSignal            -- user_application_loaded.emit
deriving DecidableEq

/-- State of `RunControlBase`: the FSM state, the run id, the integer stored
in config/run.cfg, the loaded user application and the chronological trace of
the observed actions. -/
structure RCState where
  fsm : FsmState
  runId : Nat
  runCfgFile : Nat
  app : Option UserApp
  events : List RCEvent
deriving DecidableEq

/-- Exceptions raised by the run control. -/
inductive RCError
  | invalidTransition (src dest : FsmState)
  | appNotLoaded     -- AppNotLoadedError
  | runtimeError     -- RuntimeError raised by load_user_application
  | hookException
deriving DecidableEq

/-- Method `_increment_run_id`: increment the run id, emit run_id_changed and
write the new value to config/run.cfg. -/
def incrementRunId (st : RCState) : RCState :=
  { st with
    runId := st.runId + 1,
    runCfgFile := st.runId + 1,
    events := st.events ++ [.runIdSignal (st.runId + 1), .persistRunId (st.runId + 1)] }

/-- Method `RunControlBase.start_run` (without a configuration argument):
check the user application, increment and persist the run id, create the data
folder, install the run log handler, latch the timestamps and start the user
application (from which point data can be written to the run output files).
If `user_application.start` raises, the exception propagates (the model keeps
only the error). -/
def rcStartRun (st : RCState) : Except RCError RCState :=
  match st.app with
  | none => .error .appNotLoaded
  | some app =>
      let st1 := incrementRunId st
      let st2 := { st1 with
        events := st1.events ++
          [RCEvent.createDataFolder st1.runId, RCEvent.addLogHandler st1.runId] }
      if app.startOk then
        .ok { st2 with events := st2.events ++ [RCEvent.appStart st2.runId] }
      else .error .hookException

/-- Method `RunControlBase.resume`: only checks that a user application is
loaded; the run id is untouched. -/
def rcResume (st : RCState) : Except RCError RCState :=
  match st.app with
  | none => .error .appNotLoaded
  | some _ => .ok st

/-- Method `RunControlBase.setup`: check the user application and run its
setup hook. -/
def rcSetup (st : RCState) : Except RCError RCState :=
  match st.app with
  | none => .error .appNotLoaded
  | some app => if app.setupOk then .ok st else .error .hookException

/-- Method `RunControlBase.stop_run` (observable part: the hooks may
raise). -/
def rcStopRun (st : RCState) : Except RCError RCState :=
  match st.app with
  | none => .error .appNotLoaded
  | some app => if app.stopOk then .ok st else .error .hookException

/-- Method `RunControlBase.stop` (PAUSED to STOPPED): only checks the user
application. -/
def rcStop (st : RCState) : Except RCError RCState :=
  match st.app with
  | none => .error .appNotLoaded
  | some _ => .ok st

/-- Method `set_running` with the `RunControlBase` hooks bound. -/
def rcSetRunning (st : RCState) : Except RCError RCState :=
  if st.fsm = .stopped then
    match rcStartRun st with
    | .error e => .error e
    | .ok st1 => .ok { st1 with fsm := .running }
  else if st.fsm = .paused then
    match rcResume st with
    | .error e => .error e
    | .ok st1 => .ok { st1 with fsm := .running }
  else .error (.invalidTransition st.fsm .running)

/-- Method `set_stopped` with the `RunControlBase` hooks bound. -/
def rcSetStopped (st : RCState) : Except RCError RCState :=
  if st.fsm = .reset then
    match rcSetup st with
    | .error e => .error e
    | .ok st1 => .ok { st1 with fsm := .stopped }
  else if st.fsm = .running then
    match rcStopRun st with
    | .error e => .error e
    | .ok st1 => .ok { st1 with fsm := .stopped }
  else if st.fsm = .paused then
    match rcStop st with
    | .error e => .error e
    | .ok st1 => .ok { st1 with fsm := .stopped }
  else .error (.invalidTransition st.fsm .stopped)

/-- Candidate object handed to `load_user_application`: whether it passes the
isinstance check, and the application itself. -/
structure Candidate where
  isUserApplication : Bool
  app : UserApp
deriving DecidableEq

/-- Method `RunControlBase.load_user_application`: only valid in the RESET
state and only for UserApplicationBase instances (RuntimeError otherwise,
raised before anything is mutated); on success the application is stored,
user_application_loaded is emitted and `set_stopped()` is called at once. -/
def loadUserApplication (st : RCState) (cand : Candidate) : Except RCError RCState :=
  if st.fsm ≠ .reset then .error .runtimeError
  else if ¬ cand.isUserApplication then .error .runtimeError
  else
    rcSetStopped { st with app := some cand.app, events := st.events ++ [.appLoadedSignal] }

/-- Statement of claim C5 exactly as written: every successful set_running
call (from STOPPED or from PAUSED) observes run_id_new = run_id_prev + 1. -/
def claimC5 : Prop :=
  ∀ (st st2 : RCState), rcSetRunning st = .ok st2 → st2.runId = st.runId + 1

/-- Hook outcomes with every hook succeeding. -/
def allOkHooks : Hooks :=
  { setup := true, teardown := true, startRun := true, stopRun := true,
    pause := true, resume := true, stop := true }

/-- Hook outcomes in which start_run raises. -/
def startFailHooks : Hooks :=
  { setup := true, teardown := true, startRun := false, stopRun := true,
    pause := true, resume := true, stop := true }

/-- A user application whose hooks all succeed. -/
def okApp : UserApp :=
  { setupOk := true, teardownOk := true, startOk := true, stopOk := true }

/-- Run control paused during run 5, used against claim C5. -/
def c5PausedState : RCState :=
  { fsm := .paused, runId := 5, runCfgFile := 5, app := some okApp, events := [] }

/-- Run control stopped after run 3, used as witness for the amended C5. -/
def c5StoppedState : RCState :=
  { fsm := .stopped, runId := 3, runCfgFile := 3, app := some okApp, events := [] }

/-- Freshly reset run control with no application loaded, used as witness for
C10. -/
def c10ResetState : RCState :=
  { fsm := .reset, runId := 3, runCfgFile := 3, app := none, events := [] }

/-! ## Theorems

Helper lemmas first, then one theorem per claim (with its witness or
counterexample where required).
-/

theorem Fmt.size_pos (f : Fmt) : 0 < f.size := by cases f <;> decide

theorem natToBytesLE_length (s n : Nat) : (natToBytesLE s n).length = s := by
  induction s generalizing n with
  | zero => rfl
  | succ s ih => simp [natToBytesLE, ih]

theorem bytesLEToNat_natToBytesLE (s n : Nat) :
    bytesLEToNat (natToBytesLE s n) = n % 256 ^ s := by
  induction s generalizing n with
  | zero => simp [natToBytesLE, bytesLEToNat, Nat.mod_one]
  | succ s ih =>
      simp only [natToBytesLE, bytesLEToNat, ih]
      rw [pow_succ', Nat.mod_mul]

theorem encodeInt_length (order : ByteOrder) (f : Fmt) (v : Int) :
    (encodeInt order f v).length = f.size := by
  cases order <;> simp [encodeInt, natToBytesLE_length]

theorem decodeInt_encodeInt (order : ByteOrder) (f : Fmt) (v : Int)
    (hv : validValue f v = true) :
    decodeInt order f (encodeInt order f v) = v := by
  have hle : ∀ s u, bytesLEToNat (natToBytesLE s u) = u % 2 ^ (8 * s) := by
    intro s u
    rw [bytesLEToNat_natToBytesLE, show (256 : Nat) = 2 ^ 8 by norm_num, ← pow_mul]
  have horder : decodeInt order f (encodeInt order f v) =
      decodeInt .little f (encodeInt .little f v) := by
    cases order <;> simp [decodeInt, encodeInt]
  rw [horder]
  simp only [decodeInt, encodeInt, hle]
  revert hv
  cases f <;>
    simp only [validValue, Fmt.size, Fmt.signed, Bool.true_and, Bool.false_and,
      Bool.and_eq_true, decide_eq_true_eq] <;>
    norm_num <;> intros <;> (try split) <;> omega

theorem packVals_length (c : PktClass) (vs : List Int)
    (h : vs.length = c.fields.length) : (packVals c vs).length = c.size := by
  unfold packVals PktClass.size
  obtain ⟨fs, hfs⟩ : ∃ fs, c.fields = fs := ⟨c.fields, rfl⟩
  rw [hfs] at h ⊢
  clear hfs
  induction fs generalizing vs with
  | nil => simp
  | cons f fs ih =>
      cases vs with
      | nil => simp at h
      | cons v vs =>
          simp only [List.zipWith_cons_cons, List.flatten_cons, List.map_cons, List.sum_cons,
            List.length_append, encodeInt_length]
          rw [ih vs (by simpa using h)]

theorem decodeVals_packVals (c : PktClass) (vs : List Int)
    (hlen : vs.length = c.fields.length)
    (hv : allValid c.fields vs = true) :
    decodeVals c.layout.byteOrder c.fields (packVals c vs) = vs := by
  unfold packVals
  obtain ⟨fs, hfs⟩ : ∃ fs, c.fields = fs := ⟨c.fields, rfl⟩
  rw [hfs] at hlen hv ⊢
  clear hfs
  induction fs generalizing vs with
  | nil =>
      cases vs with
      | nil => rfl
      | cons v vs => simp at hlen
  | cons f fs ih =>
      cases vs with
      | nil => simp at hlen
      | cons v vs =>
          simp only [allValid, Bool.and_eq_true] at hv
          simp only [List.zipWith_cons_cons, List.flatten_cons, decodeVals]
          have hlen1 : (encodeInt c.layout.byteOrder f.fmt v).length = f.fmt.size :=
            encodeInt_length _ _ _
          rw [List.take_left' hlen1, List.drop_left' hlen1,
            decodeInt_encodeInt _ _ _ hv.1, ih vs hv.2 (by simpa using hlen)]

theorem decodeVals_length (order : ByteOrder) (fs : List Field) (data : List Nat) :
    (decodeVals order fs data).length = fs.length := by
  induction fs generalizing data with
  | nil => rfl
  | cons f fs ih => simp [decodeVals, ih]

theorem firstMismatch_none (fs : List Field) (vs : List Int)
    (hlen : vs.length = fs.length)
    (h : firstMismatch fs vs = none) :
    ∀ i f k, fs.get? i = some f → f.expected = some k → vs.get? i = some k := by
  induction fs generalizing vs with
  | nil => intro i f k hf; simp at hf
  | cons f0 fs ih =>
      cases vs with
      | nil => simp at hlen
      | cons v0 vs =>
          intro i f k hf hk
          have hlen2 : vs.length = fs.length := by simpa using hlen
          cases i with
          | zero =>
              simp only [List.get?] at hf ⊢
              obtain rfl : f0 = f := by injection hf
              simp only [firstMismatch, hk] at h
              by_cases hkv : k = v0
              · simp [hkv]
              · simp [hkv] at h
          | succ i =>
              simp only [List.get?] at hf ⊢
              cases hexp : f0.expected with
              | some k0 =>
                  simp only [firstMismatch, hexp] at h
                  by_cases hkv : k0 = v0
                  · rw [if_neg (by simp [hkv])] at h
                    exact ih vs hlen2 h i f k hf hk
                  · simp [hkv] at h
              | none =>
                  simp only [firstMismatch, hexp] at h
                  exact ih vs hlen2 h i f k hf hk

theorem firstMismatch_at (fs : List Field) (vs : List Int) (j : Nat)
    (f : Field) (k v : Int)
    (hmu : matchesUpTo fs vs j)
    (hf : fs.get? j = some f) (hk : f.expected = some k)
    (hv : vs.get? j = some v) (hne : v ≠ k) :
    firstMismatch fs vs = some (f.name, k, v) := by
  induction fs generalizing vs j with
  | nil => simp at hf
  | cons f0 fs ih =>
      cases vs with
      | nil => cases j <;> simp at hv
      | cons v0 vs =>
          cases j with
          | zero =>
              simp only [List.get?] at hf hv
              obtain rfl : f0 = f := by injection hf
              obtain rfl : v0 = v := by injection hv
              simp only [firstMismatch, hk]
              rw [if_pos (Ne.symm hne)]
          | succ j =>
              simp only [List.get?] at hf hv
              have htail : matchesUpTo fs vs j := by
                intro i hi fi ki hfi hki
                have h2 := hmu (i + 1) (by omega) fi ki (by simpa using hfi) hki
                simpa using h2
              cases hexp : f0.expected with
              | some k0 =>
                  have h0 := hmu 0 (by omega) f0 k0 (by simp) hexp
                  simp only [List.get?] at h0
                  have hv0 : v0 = k0 := by injection h0
                  simp only [firstMismatch, hexp, hv0]
                  rw [if_neg (by simp)]
                  exact ih vs j htail hf hv
              | none =>
                  simp only [firstMismatch, hexp]
                  exact ih vs j htail hf hv

theorem initPacket_ok_facts (c : PktClass) (args : List Int) (data? : Option (List Nat))
    (p : Packet) (hp : initPacket c args data? = .ok p) :
    args.length = c.fields.length ∧ firstMismatch c.fields args = none ∧ p.values = args := by
  unfold initPacket at hp
  by_cases h1 : args.length ≠ c.fields.length
  · rw [if_pos h1] at hp; exact absurd hp (by simp)
  · rw [if_neg h1] at hp
    push_neg at h1
    cases hfm : firstMismatch c.fields args with
    | some t =>
        obtain ⟨n, k, v⟩ := t
        rw [hfm] at hp
        exact absurd hp (by simp)
    | none =>
        rw [hfm] at hp
        refine ⟨h1, rfl, ?_⟩
        cases data? with
        | some data =>
            simp only at hp
            injection hp with hp
            rw [← hp]
        | none =>
            simp only at hp
            by_cases hav : allValid c.fields args
            · rw [if_pos hav] at hp
              injection hp with hp
              rw [← hp]
            · rw [if_neg hav] at hp
              exact absurd hp (by simp)

theorem initPacket_none_ok (c : PktClass) (args : List Int) (p : Packet)
    (hp : initPacket c args none = .ok p) :
    args.length = c.fields.length ∧ firstMismatch c.fields args = none ∧
    allValid c.fields args = true ∧
    p = { values := args, payload := packVals c args, derived := c.postInit args } := by
  unfold initPacket at hp
  by_cases h1 : args.length ≠ c.fields.length
  · rw [if_pos h1] at hp; exact absurd hp (by simp)
  · rw [if_neg h1] at hp
    push_neg at h1
    cases hfm : firstMismatch c.fields args with
    | some t =>
        obtain ⟨n, k, v⟩ := t
        rw [hfm] at hp
        exact absurd hp (by simp)
    | none =>
        rw [hfm] at hp
        simp only at hp
        by_cases hav : allValid c.fields args
        · rw [if_pos hav] at hp
          injection hp with hp
          exact ⟨h1, rfl, hav, hp.symm⟩
        · rw [if_neg hav] at hp
          exact absurd hp (by simp)

theorem initPacket_mismatch (c : PktClass) (args : List Int) (data? : Option (List Nat))
    (nm : String) (ke va : Int)
    (hlen : args.length = c.fields.length)
    (hfm : firstMismatch c.fields args = some (nm, ke, va)) :
    initPacket c args data? = .error (.fieldMismatch nm ke va) := by
  unfold initPacket
  rw [if_neg (by simp [hlen]), hfm]

theorem unpack_eq_initPacket (c : PktClass) (data : List Nat)
    (hlen : data.length = c.size) :
    unpack c data = initPacket c (decodeVals c.layout.byteOrder c.fields data) (some data) := by
  unfold unpack
  rw [if_neg (by simp [hlen])]

/-- C1: for every packet class (valid layout and format characters in the
embedded standard fragment) and every instance successfully constructed from
field values, unpacking the packed bytes succeeds and returns an instance
equal to the original field-by-field, payload included, with the derived
fields recomputed identically by the post-initialization hook. -/
theorem c1_pack_unpack_roundtrip (c : PktClass) (args : List Int) (p : Packet)
    (hlay : c.layout.standard = true)
    (hp : initPacket c args none = .ok p) :
    unpack c (packPacket c p) = .ok p := by
  obtain ⟨hlen, hfm, hav, rfl⟩ := initPacket_none_ok c args p hp
  have hplen : (packVals c args).length = c.size := packVals_length c args hlen
  unfold packPacket
  simp only
  rw [unpack_eq_initPacket c _ hplen, decodeVals_packVals c args hlen hav]
  unfold initPacket
  rw [if_neg (by simp [hlen]), hfm]

/-- Witness for C1 at the Readout packet class of the test suite. -/
theorem c1_witness :
    Layout.standard readoutClass.layout = true ∧
    initPacket readoutClass [170, 1000, 127] none = .ok readoutPkt ∧
    unpack readoutClass (packPacket readoutClass readoutPkt) = .ok readoutPkt :=
  ⟨rfl, rfl, c1_pack_unpack_roundtrip readoutClass [170, 1000, 127] readoutPkt rfl rfl⟩

/-- C9: the constructor generated by packetclass enforces every declared
expected constant: any successful construction (direct, or through unpack)
yields an instance whose constant fields hold exactly their constants, and a
construction attempt with a differing value for a constant field fails with a
FieldMismatch error. -/
theorem c9_constant_fields_enforced (c : PktClass) :
    (∀ args data? p, initPacket c args data? = .ok p → constantsHold c p)
    ∧ (∀ data p, unpack c data = .ok p → constantsHold c p)
    ∧ (∀ args data? j f k v, c.fields.get? j = some f → f.expected = some k →
        args.get? j = some v → v ≠ k → args.length = c.fields.length →
        ∃ nm ke va, initPacket c args data? = .error (.fieldMismatch nm ke va)) := by
  have part1 : ∀ args data? p, initPacket c args data? = .ok p → constantsHold c p := by
    intro args data? p hp
    obtain ⟨hlen, hfm, hvals⟩ := initPacket_ok_facts c args data? p hp
    intro i f k hf hk
    rw [hvals]
    exact firstMismatch_none c.fields args hlen hfm i f k hf hk
  refine ⟨part1, ?_, ?_⟩
  · intro data p hp
    unfold unpack at hp
    by_cases hlen : data.length ≠ c.size
    · rw [if_pos hlen] at hp; exact absurd hp (by simp)
    · rw [if_neg hlen] at hp
      exact part1 _ _ _ hp
  · intro args data? j f k v hf hk hv hne hlen
    cases hfm : firstMismatch c.fields args with
    | none =>
        have := firstMismatch_none c.fields args hlen hfm j f k hf hk
        rw [hv] at this
        exact absurd (by injection this) hne
    | some t =>
        obtain ⟨nm, ke, va⟩ := t
        exact ⟨nm, ke, va, initPacket_mismatch c args data? nm ke va hlen hfm⟩

/-- Witness for C9: the Readout header constant holds in a constructed
instance, and constructing with a wrong header fails with FieldMismatch. -/
theorem c9_witness :
    constantsHold readoutClass readoutPkt ∧
    (∃ nm ke va, initPacket readoutClass [9, 1000, 127] none =
      .error (.fieldMismatch nm ke va)) :=
  ⟨(c9_constant_fields_enforced readoutClass).1 [170, 1000, 127] none readoutPkt rfl,
   (c9_constant_fields_enforced readoutClass).2.2 [9, 1000, 127] none 0
     { name := "header", fmt := .B, expected := some 170 } 170 9 rfl rfl rfl
     (by decide) rfl⟩

/-- C6 as stated is refuted by a class with two expected-constant fields that
both mismatch: the raised FieldMismatch identifies the first mismatching
field, not the later one the claim is instantiated at. -/
theorem c6_counterexample : ¬ claimC6 := by
  intro h
  have h2 := h twoConstClass [9, 9] 1 (by decide) 2 rfl rfl (by decide)
  have hreal : unpack twoConstClass [9, 9] = .error (.fieldMismatch "alpha" 1 9) := rfl
  rw [hreal] at h2
  exact absurd (Except.error.inj h2) (by decide)

/-- C6 amended: unpacking a correct-length byte string in which an
expected-constant field decodes to a different value always fails with a
FieldMismatch error, and the error identifies the first mismatching
expected-constant field with its expected and decoded values; in particular,
when every earlier constant field matches its decoded value, the error
identifies exactly the given field.  The byte string, a pure value, is not
mutated. -/
theorem c6_amended_header_enforcement (c : PktClass) (data : List Nat) (j : Nat)
    (hj : j < c.fields.length) (k : Int)
    (hexp : (c.fields.get ⟨j, hj⟩).expected = some k)
    (hlen : data.length = c.size)
    (hne : (decodeVals c.layout.byteOrder c.fields data).get? j ≠ some k) :
    (∃ nm ke va, unpack c data = .error (.fieldMismatch nm ke va)) ∧
    (matchesUpTo c.fields (decodeVals c.layout.byteOrder c.fields data) j →
      unpack c data = .error (.fieldMismatch (c.fields.get ⟨j, hj⟩).name k
        ((decodeVals c.layout.byteOrder c.fields data).getD j 0))) := by
  have hvslen : (decodeVals c.layout.byteOrder c.fields data).length = c.fields.length :=
    decodeVals_length _ _ _
  have hjv : j < (decodeVals c.layout.byteOrder c.fields data).length := by omega
  have hvj : (decodeVals c.layout.byteOrder c.fields data).get? j =
      some ((decodeVals c.layout.byteOrder c.fields data).getD j 0) := by
    rw [List.getD_eq_get?]
    cases hq : (decodeVals c.layout.byteOrder c.fields data).get? j with
    | none => rw [List.get?_eq_none] at hq; omega
    | some v => rfl
  have hfj : c.fields.get? j = some (c.fields.get ⟨j, hj⟩) := List.get?_eq_get hj
  have hnev : (decodeVals c.layout.byteOrder c.fields data).getD j 0 ≠ k := by
    intro heq
    exact hne (by rw [hvj, heq])
  constructor
  · cases hfm : firstMismatch c.fields (decodeVals c.layout.byteOrder c.fields data) with
    | none =>
        exfalso
        exact hne (firstMismatch_none c.fields _ hvslen hfm j _ k hfj hexp)
    | some t =>
        obtain ⟨nm, ke, va⟩ := t
        exact ⟨nm, ke, va, by
          rw [unpack_eq_initPacket c data hlen]
          exact initPacket_mismatch c _ _ nm ke va hvslen hfm⟩
  · intro hmu
    have hfm := firstMismatch_at c.fields (decodeVals c.layout.byteOrder c.fields data) j
      (c.fields.get ⟨j, hj⟩) k ((decodeVals c.layout.byteOrder c.fields data).getD j 0)
      hmu hfj hexp hvj hnev
    rw [unpack_eq_initPacket c data hlen]
    exact initPacket_mismatch c _ _ _ _ _ hvslen hfm

/-- Witness for the amended C6: flipping the Readout header byte to 0xab
makes unpack fail with a FieldMismatch naming the header field, 0xaa expected
and 0xab found. -/
theorem c6_amended_witness :
    (∃ nm ke va, unpack readoutClass [171, 0, 0, 3, 232, 0, 127] =
      .error (.fieldMismatch nm ke va)) ∧
    unpack readoutClass [171, 0, 0, 3, 232, 0, 127] =
      .error (.fieldMismatch "header" 170 171) := by
  have h := c6_amended_header_enforcement readoutClass [171, 0, 0, 3, 232, 0, 127] 0
    (by decide) 170 rfl (by decide) (by decide)
  exact ⟨h.1, h.2 (by intro i hi; omega)⟩

theorem procSinks_ok (q : List BPacket) (n : Nat) (pairs : List (Nat × Sink))
    (h : ∀ js ∈ pairs, js.1 ≠ 0 → js.2.formatter.isSome = true) :
    procSinks q n pairs =
      .ok (pairs.map (fun js => (js.1, updSink q n js.1 js.2)),
           (pairs.map (fun js => evsFor js.1 n)).flatten) := by
  induction pairs with
  | nil => rfl
  | cons js rest ih =>
      obtain ⟨j, s⟩ := js
      have hrest : ∀ x ∈ rest, x.1 ≠ 0 → x.2.formatter.isSome = true :=
        fun x hx => h x (by simp [hx])
      by_cases hj : j = 0
      · subst hj
        simp only [procSinks, if_pos rfl]
        rw [ih hrest]
        simp [updSink]
      · have hs := h (j, s) (by simp) hj
        cases hfmt : s.formatter with
        | none => rw [hfmt] at hs; simp at hs
        | some fmt =>
            simp only [procSinks, if_neg hj, hfmt]
            rw [ih hrest]
            simp [updSink, hfmt, hj]

theorem flushFull_ok (st : BufState)
    (hs : st.sinks.length ≠ 0) (hq : st.queue.length ≠ 0)
    (hfmt : ∀ js ∈ st.sinks.enum, js.1 ≠ 0 → js.2.formatter.isSome = true) :
    flushFull st = .ok
      ({ queue := [],
         sinks := st.sinks.enum.map (fun js => updSink st.queue st.queue.length js.1 js.2) },
       (st.queue.length, 0),
       (st.sinks.enum.reverse.map (fun js => evsFor js.1 st.queue.length)).flatten) := by
  have hrev : ∀ js ∈ st.sinks.enum.reverse, js.1 ≠ 0 → js.2.formatter.isSome = true := by
    intro js hjs
    exact hfmt js (by simpa using hjs)
  simp only [flushFull, if_neg hs, if_neg hq]
  rw [procSinks_ok st.queue st.queue.length st.sinks.enum.reverse hrev]
  simp only [List.drop_length, List.map_reverse, List.reverse_reverse, List.map_map]
  rfl

/-- C2: a flush of a buffer holding n packets with k sinks attached (the
first canonical, the rest projections) delivers all n snapshotted packets to
every sink exactly once and in FIFO queue order — the canonical sink file
grows by the concatenation of the raw payloads, each projection sink file by
the concatenation of its formatter outputs — removes exactly those n packets
from the queue, and touches no other sink. -/
theorem c2_flush_fan_out (st : BufState) (n k : Nat)
    (hn : st.queue.length = n) (hn1 : 1 ≤ n)
    (hk : st.sinks.length = k) (hk1 : 1 ≤ k)
    (hfmt : ∀ j s, st.sinks.get? j = some s → j ≠ 0 → s.formatter.isSome = true) :
    ∃ st2 evs, flushFull st = .ok (st2, (n, 0), evs) ∧
      st2.queue = [] ∧
      st2.sinks.length = k ∧
      (∀ s0, st.sinks.get? 0 = some s0 → st2.sinks.get? 0 =
        some { formatter := s0.formatter, content := s0.content ++ nativeBytes st.queue n }) ∧
      (∀ j s, st.sinks.get? j = some s → j ≠ 0 → ∀ fmt, s.formatter = some fmt →
        st2.sinks.get? j =
          some { formatter := some fmt, content := s.content ++ customBytes st.queue n fmt }) := by
  subst hn hk
  have hfmt2 : ∀ js ∈ st.sinks.enum, js.1 ≠ 0 → js.2.formatter.isSome = true := by
    intro js hjs hj0
    exact hfmt js.1 js.2 (List.mem_enum_iff_get?.mp hjs) hj0
  refine ⟨_, _, flushFull_ok st (by omega) (by omega) hfmt2, rfl, by simp, ?_, ?_⟩
  · intro s0 hs0
    simp only [List.get?_map, List.get?_enum, hs0, Option.map_some]
    simp [updSink]
  · intro j s hjs hj0 fmt hfmtj
    simp only [List.get?_map, List.get?_enum, hjs, Option.map_some]
    simp [updSink, hj0, hfmtj]

/-- Witness for C2 on a concrete two-packet, two-sink buffer. -/
theorem c2_witness :
    c2State.queue.length = 2 ∧ c2State.sinks.length = 2 ∧
    (∃ st2 evs, flushFull c2State = .ok (st2, (2, 0), evs) ∧
      st2.queue = [] ∧
      st2.sinks.length = 2 ∧
      (∀ s0, c2State.sinks.get? 0 = some s0 → st2.sinks.get? 0 =
        some { formatter := s0.formatter,
               content := s0.content ++ nativeBytes c2State.queue 2 }) ∧
      (∀ j s, c2State.sinks.get? j = some s → j ≠ 0 → ∀ fmt, s.formatter = some fmt →
        st2.sinks.get? j =
          some { formatter := some fmt,
                 content := s.content ++ customBytes c2State.queue 2 fmt })) := by
  refine ⟨rfl, rfl, c2_flush_fan_out c2State 2 2 rfl (by omega) rfl (by omega) ?_⟩
  intro j s hjs hj0
  cases j with
  | zero => exact absurd rfl hj0
  | succ j =>
      cases j with
      | zero =>
          have : some { formatter := some witFmt, content := [35] } = some s := hjs
          obtain rfl : ({ formatter := some witFmt, content := [35] } : Sink) = s := by
            injection this
          rfl
      | succ j => simp [c2State, List.get?] at hjs

/-- C3 (code bug): flushing one three-byte packet to a single canonical sink
writes the three payload bytes to the sink file, yet the returned pair is
(1, 0) — the local num_bytes of BufferBase.flush is initialized to zero and
never incremented with the values returned by the write helpers — and
flush_buffer consequently adds 0 to the bytes-written statistics counter. -/
theorem c3_flush_byte_count_bug :
    flush c3State = .ok
      ({ queue := [], sinks := [{ formatter := none, content := [170, 0, 1] }] }, (1, 0)) ∧
    flushBuffer c3State { packetsProcessed := 7, packetsWritten := 0, bytesWritten := 0 } =
      .ok ({ queue := [], sinks := [{ formatter := none, content := [170, 0, 1] }] },
           { packetsProcessed := 7, packetsWritten := 1, bytesWritten := 0 }) :=
  ⟨rfl, rfl⟩

/-- C7 as stated is refuted: with two sinks and two packets, the flush loop
writes both packets to the projection sink before the canonical sink receives
the first one, so the second packet reaches one sink before the first packet
has reached every sink. -/
theorem c7_counterexample : ¬ claimC7 := by
  intro h
  have h2 := h c7State
    { queue := [],
      sinks := [{ formatter := none, content := [1, 2] },
                { formatter := some witFmt, content := [1, 10, 2, 10] }] }
    (2, 0)
    [{ sink := 1, pkt := 0 }, { sink := 1, pkt := 1 },
     { sink := 0, pkt := 0 }, { sink := 0, pkt := 1 }]
    (by decide) rfl
  have h3 : ¬ packetMajorOrder
      [{ sink := 1, pkt := 0 }, { sink := 1, pkt := 1 },
       { sink := 0, pkt := 0 }, { sink := 0, pkt := 1 }] := by
    unfold packetMajorOrder
    decide
  exact absurd h2 h3

/-- C7 amended: within each sink the packets are written in FIFO order, but
the sinks are served one after the other: all n packets go to one sink before
any packet goes to the next, the projection sinks first in reverse attachment
order and the canonical (first-attached) sink last. -/
theorem c7_amended_sink_major_order (st : BufState)
    (hs : st.sinks.length ≠ 0) (hq : st.queue.length ≠ 0)
    (hfmt : ∀ js ∈ st.sinks.enum, js.1 ≠ 0 → js.2.formatter.isSome = true) :
    ∃ st2, flushFull st = .ok (st2, (st.queue.length, 0),
      (st.sinks.enum.reverse.map (fun js => evsFor js.1 st.queue.length)).flatten) :=
  ⟨_, flushFull_ok st hs hq hfmt⟩

/-- Witness for the amended C7 on the concrete two-packet, two-sink buffer:
the write order is sink 1 (packets 0, 1) then sink 0 (packets 0, 1). -/
theorem c7_amended_witness :
    c7State.sinks.length ≠ 0 ∧ c7State.queue.length ≠ 0 ∧
    (∃ st2, flushFull c7State = .ok (st2, (c7State.queue.length, 0),
      (c7State.sinks.enum.reverse.map (fun js => evsFor js.1 c7State.queue.length)).flatten)) := by
  refine ⟨by decide, by decide, c7_amended_sink_major_order c7State (by decide) (by decide) ?_⟩
  intro js hjs hj0
  cases hjs with
  | head => exact absurd rfl hj0
  | tail _ h2 =>
      cases h2 with
      | head => rfl
      | tail _ h3 => cases h3

/-- C8 as stated is refuted: a flush with a projection sink attached and a
packet queued raises a TypeError on the FIFO variant (queue.Queue does not
support the indexing used by the projection pass) while it succeeds on the
circular variant, so the two runs disagree although the capacity is never
exceeded. -/
theorem c8_counterexample : ¬ claimC8 := by
  intro h
  have h2 := h { maxSize := none, flushSize := none, flushInterval := 1 } c8State
    [BufOp.flushOp 5] rfl
  have h3 : Option.map (fun (x : VarState × List BufOut) => x.2)
      (fifoRun { maxSize := none, flushSize := none, flushInterval := 1 } c8State
        [BufOp.flushOp 5]) =
      Option.map (fun (x : VarState × List BufOut) => x.2)
        (some (circRun { maxSize := none, flushSize := none, flushInterval := 1 } c8State
          [BufOp.flushOp 5])) := by rw [h2]
  have h4 : Option.map (fun (x : VarState × List BufOut) => x.2)
      (fifoRun { maxSize := none, flushSize := none, flushInterval := 1 } c8State
        [BufOp.flushOp 5]) = some [BufOut.fail .notSubscriptable] := rfl
  have h5 : Option.map (fun (x : VarState × List BufOut) => x.2)
      (some (circRun { maxSize := none, flushSize := none, flushInterval := 1 } c8State
        [BufOp.flushOp 5])) = some [BufOut.pair 1 0] := rfl
  rw [h4, h5] at h3
  exact absurd (by injection h3) (by decide : ¬([BufOut.fail .notSubscriptable] =
    [BufOut.pair 1 0]))

theorem fifoStep_eq_circStep (cfg : BufCfg) (st : VarState) (op : BufOp)
    (hop : opSafe cfg st op = true) :
    fifoStep cfg st op = some (circStep cfg st op) := by
  cases op with
  | putOp p =>
      simp only [opSafe] at hop
      cases hms : cfg.maxSize with
      | none =>
          simp [fifoStep, circStep, fifoPut, circPut, fifoCap, hms]
      | some m =>
          rw [hms] at hop
          simp only [decide_eq_true_eq] at hop
          simp [fifoStep, circStep, fifoPut, circPut, fifoCap, hms, hop]
  | addSinkOp fmt header =>
      simp only [fifoStep, circStep]
      cases addSinkStep st.sinks fmt header <;> rfl
  | clearOp => rfl
  | sizeOp => rfl
  | almostFullOp => rfl
  | flushNeededOp now => rfl
  | flushOp now =>
      simp only [opSafe, Bool.or_eq_true, decide_eq_true_eq] at hop
      by_cases hz : st.sinks.length = 0
      · simp [fifoStep, circStep, hz]
      · have hff : fifoFlushFull { queue := st.queue, sinks := st.sinks } =
            flushFull { queue := st.queue, sinks := st.sinks } := by
          by_cases hq : st.queue.length = 0
          · simp [fifoFlushFull, flushFull, hz, hq]
          · rcases hop with hop | hop
            · match hsk : st.sinks, hz with
              | [s], _ =>
                  simp [fifoFlushFull, flushFull, hq, List.enum, List.enumFrom,
                    fifoProcSinks, procSinks, updSink]
              | s :: s2 :: rest, _ => rw [hsk] at hop; simp at hop
            · exact absurd hop hq
        simp only [fifoStep, circStep, if_neg hz, hff]
        cases flushFull { queue := st.queue, sinks := st.sinks } with
        | error e => rfl
        | ok r => rfl

/-- C8 amended: the FIFO and CircularBuffer disciplines agree on every
operation sequence in which the configured capacity is never exceeded and no
flush is issued while a projection sink is attached and packets are queued;
in that excluded situation the FIFO variant raises a TypeError (queue.Queue
is not subscriptable) while the circular variant succeeds — beyond it, the
two differ only in the overflow policy when full. -/
theorem c8_amended_equivalence (cfg : BufCfg) (st : VarState) (ops : List BufOp)
    (hsafe : safeOps cfg st ops = true) :
    fifoRun cfg st ops = some (circRun cfg st ops) := by
  induction ops generalizing st with
  | nil => rfl
  | cons op ops ih =>
      rw [safeOps, Bool.and_eq_true] at hsafe
      rw [fifoRun, fifoStep_eq_circStep cfg st op hsafe.1]
      rw [circRun]
      cases hcs : circStep cfg st op with
      | mk st2 o =>
          rw [hcs] at hsafe
          have hih := ih st2 hsafe.2
          cases hcr : circRun cfg st2 ops with
          | mk st3 os =>
              rw [hcr] at hih
              simp [hih, hcr]

/-- Witness for the amended C8: a concrete five-operation run (attach a
canonical sink, put, size, flush, flush_needed) on which both variants agree.
-/
theorem c8_amended_witness :
    safeOps { maxSize := some 4, flushSize := some 2, flushInterval := 1 }
      { queue := [], sinks := [], lastFlush := 0 }
      [BufOp.addSinkOp none [], BufOp.putOp { payload := [5] }, BufOp.sizeOp,
       BufOp.flushOp 3, BufOp.flushNeededOp 4] = true ∧
    fifoRun { maxSize := some 4, flushSize := some 2, flushInterval := 1 }
      { queue := [], sinks := [], lastFlush := 0 }
      [BufOp.addSinkOp none [], BufOp.putOp { payload := [5] }, BufOp.sizeOp,
       BufOp.flushOp 3, BufOp.flushNeededOp 4] =
    some (circRun { maxSize := some 4, flushSize := some 2, flushInterval := 1 }
      { queue := [], sinks := [], lastFlush := 0 }
      [BufOp.addSinkOp none [], BufOp.putOp { payload := [5] }, BufOp.sizeOp,
       BufOp.flushOp 3, BufOp.flushNeededOp 4]) :=
  ⟨rfl, c8_amended_equivalence _ _ _ rfl⟩

set_option maxHeartbeats 4000000 in
/-- C4: a call to one of the four state-setting verbs changes the FSM state
exactly when the (current state, target state) pair is one of the seven
allowed transitions; any other request raises InvalidTransition(from, to)
with the state unchanged; and if the hook of an allowed transition raises,
the transition is aborted and the FSM stays in the pre-transition state. -/
theorem c4_transition_totality (h : Hooks) (s t : FsmState) :
    (hookFor h s t = true →
      (((applyRequest h t s).1 ≠ s) ↔ allowedTransition s t = true) ∧
      (allowedTransition s t = true → applyRequest h t s = (t, none)) ∧
      (allowedTransition s t = false →
        applyRequest h t s = (s, some (.invalidTransition s t)))) ∧
    (hookFor h s t = false → allowedTransition s t = true →
      applyRequest h t s = (s, some .hookException)) := by
  obtain ⟨h1, h2, h3, h4, h5, h6, h7⟩ := h
  cases s <;> cases t <;> cases h1 <;> cases h2 <;> cases h3 <;> cases h4 <;>
    cases h5 <;> cases h6 <;> cases h7 <;> decide

/-- Witness for C4: from STOPPED with all hooks succeeding, requesting
RUNNING moves the machine to RUNNING; with a failing start_run hook the
machine stays in STOPPED; requesting PAUSED from STOPPED is rejected. -/
theorem c4_witness :
    (hookFor allOkHooks .stopped .running = true ∧
      applyRequest allOkHooks .running .stopped = (.running, none)) ∧
    (hookFor startFailHooks .stopped .running = false ∧
      applyRequest startFailHooks .running .stopped = (.stopped, some .hookException)) ∧
    applyRequest allOkHooks .paused .stopped =
      (.stopped, some (.invalidTransition .stopped .paused)) :=
  ⟨⟨rfl, ((c4_transition_totality allOkHooks .stopped .running).1 rfl).2.1 rfl⟩,
   ⟨rfl, (c4_transition_totality startFailHooks .stopped .running).2 rfl rfl⟩,
   ((c4_transition_totality allOkHooks .stopped .paused).1 rfl).2.2 rfl⟩

/-- C5 as stated is refuted: a set_running call from PAUSED (the resume path)
returns successfully with the run id unchanged, so not every transition into
RUNNING increments the run id. -/
theorem c5_counterexample : ¬ claimC5 := by
  intro h
  have h2 := h c5PausedState { c5PausedState with fsm := .running } rfl
  exact absurd h2 (by decide)

/-- C5 amended: every STOPPED to RUNNING transition (the start_run path)
observes run_id_new = run_id_prev + 1 and persists the new value to the run
configuration file before the user application is started, hence before any
data is written to the run output files; a PAUSED to RUNNING transition (the
resume path) leaves the run id, the configuration file and the event trace
unchanged. -/
theorem c5_amended_run_id (st st2 : RCState) :
    (st.fsm = .stopped → rcSetRunning st = .ok st2 →
      st2.runId = st.runId + 1 ∧ st2.runCfgFile = st.runId + 1 ∧
      st2.events = st.events ++
        [RCEvent.runIdSignal (st.runId + 1), RCEvent.persistRunId (st.runId + 1),
         RCEvent.createDataFolder (st.runId + 1), RCEvent.addLogHandler (st.runId + 1),
         RCEvent.appStart (st.runId + 1)]) ∧
    (st.fsm = .paused → rcSetRunning st = .ok st2 →
      st2.runId = st.runId ∧ st2.runCfgFile = st.runCfgFile ∧ st2.events = st.events) := by
  constructor
  · intro hf hok
    rw [rcSetRunning, if_pos hf] at hok
    cases hsr : rcStartRun st with
    | error e => rw [hsr] at hok; simp at hok
    | ok st1 =>
        rw [hsr] at hok
        have hst2 : { st1 with fsm := FsmState.running } = st2 := Except.ok.inj hok
        unfold rcStartRun at hsr
        cases happ : st.app with
        | none => rw [happ] at hsr; simp at hsr
        | some app =>
            rw [happ] at hsr
            simp only [incrementRunId] at hsr
            cases hstart : app.startOk with
            | false => rw [hstart] at hsr; simp at hsr
            | true =>
                rw [hstart] at hsr
                simp only [if_true] at hsr
                have h1 := Except.ok.inj hsr
                rw [← hst2, ← h1]
                exact ⟨rfl, rfl, by simp [List.append_assoc]⟩
  · intro hf hok
    have hns : ¬ st.fsm = .stopped := by rw [hf]; decide
    rw [rcSetRunning, if_neg hns, if_pos hf] at hok
    cases hres : rcResume st with
    | error e => rw [hres] at hok; simp at hok
    | ok st1 =>
        rw [hres] at hok
        have hst2 : { st1 with fsm := FsmState.running } = st2 := Except.ok.inj hok
        unfold rcResume at hres
        cases happ : st.app with
        | none => rw [happ] at hres; simp at hres
        | some app =>
            rw [happ] at hres
            have h1 := Except.ok.inj hres
            rw [← hst2, ← h1]
            exact ⟨rfl, rfl, rfl⟩

/-- Witness for the amended C5: starting a run from the concrete stopped
state increments the run id from 3 to 4 and persists 4 before the
application start event; resuming from the concrete paused state leaves the
run id at 5. -/
theorem c5_amended_witness :
    (c5StoppedState.fsm = .stopped ∧
      rcSetRunning c5StoppedState = .ok
        { fsm := .running, runId := 4, runCfgFile := 4, app := some okApp,
          events := [RCEvent.runIdSignal 4, RCEvent.persistRunId 4,
            RCEvent.createDataFolder 4, RCEvent.addLogHandler 4, RCEvent.appStart 4] } ∧
      (4 : Nat) = c5StoppedState.runId + 1) ∧
    (c5PausedState.fsm = .paused ∧
      rcSetRunning c5PausedState = .ok { c5PausedState with fsm := .running } ∧
      ({ c5PausedState with fsm := FsmState.running } : RCState).runId =
        c5PausedState.runId) := by
  refine ⟨⟨rfl, rfl, ?_⟩, rfl, rfl, ?_⟩
  · exact ((c5_amended_run_id c5StoppedState
      { fsm := .running, runId := 4, runCfgFile := 4, app := some okApp,
        events := [RCEvent.runIdSignal 4, RCEvent.persistRunId 4,
          RCEvent.createDataFolder 4, RCEvent.addLogHandler 4,
          RCEvent.appStart 4] }).1 rfl rfl).1.symm
  · exact ((c5_amended_run_id c5PausedState
      { c5PausedState with fsm := .running }).2 rfl rfl).1

/-- C10: a successful load_user_application call — accepted only in RESET and
only for UserApplicationBase instances, raising RuntimeError otherwise with
the state unchanged — stores the application, emits user_application_loaded
and immediately performs the RESET to STOPPED transition (running the
application setup hook), so on return the FSM is in STOPPED, never in RESET
with an application loaded. -/
theorem c10_load_user_application (st : RCState) (cand : Candidate) :
    (st.fsm = .reset → cand.isUserApplication = true → cand.app.setupOk = true →
      loadUserApplication st cand =
        .ok { fsm := .stopped, runId := st.runId, runCfgFile := st.runCfgFile,
              app := some cand.app, events := st.events ++ [RCEvent.appLoadedSignal] }) ∧
    (st.fsm ≠ .reset → loadUserApplication st cand = .error .runtimeError) ∧
    (cand.isUserApplication = false → loadUserApplication st cand = .error .runtimeError) := by
  refine ⟨?_, ?_, ?_⟩
  · intro hf hiu hsetup
    rw [loadUserApplication, if_neg (by simp [hf]), if_neg (by simp [hiu])]
    rw [rcSetStopped, if_pos (by simp [hf])]
    unfold rcSetup
    simp only [hsetup, if_true]
  · intro hf
    rw [loadUserApplication, if_pos hf]
  · intro hiu
    by_cases hf : st.fsm = .reset
    · rw [loadUserApplication, if_neg (by simp [hf]), if_pos (by simp [hiu])]
    · rw [loadUserApplication, if_pos hf]

/-- Witness for C10: loading a valid application on the concrete reset run
control returns with the FSM in STOPPED and the application stored; loading
on the stopped state raises; loading a non-application object raises. -/
theorem c10_witness :
    (c10ResetState.fsm = .reset ∧
      loadUserApplication c10ResetState { isUserApplication := true, app := okApp } =
        .ok { fsm := .stopped, runId := 3, runCfgFile := 3, app := some okApp,
              events := [RCEvent.appLoadedSignal] }) ∧
    loadUserApplication c5StoppedState { isUserApplication := true, app := okApp } =
      .error .runtimeError ∧
    loadUserApplication c10ResetState { isUserApplication := false, app := okApp } =
      .error .runtimeError :=
  ⟨⟨rfl, (c10_load_user_application c10ResetState
      { isUserApplication := true, app := okApp }).1 rfl rfl rfl⟩,
   (c10_load_user_application c5StoppedState
      { isUserApplication := true, app := okApp }).2.1 (by decide),
   (c10_load_user_application c10ResetState
      { isUserApplication := false, app := okApp }).2.2 rfl⟩

end Baldaquin
